import Mathlib

/-!
Verification of the session detection and classification engine of the
claude-dashboard repository.

The Go sources are shallowly embedded as executable Lean definitions:

* `GoStr.*` — the `strings` standard-library operations that the code uses
  (`Split` with a one-character separator, `TrimSpace`, `Fields`,
  `HasPrefix`/`HasSuffix`/`Contains`, `ToLower`, `TrimRight`, `TrimPrefix`),
  implemented by structural recursion over `String.data` so that every
  definition evaluates by `decide`/`rfl`.
* `tmux.ParseSessions` / `tmux.ListSessions` / `tmux.hasClaudeDescendant`
  — from `internal/tmux` (parser.go / client.go).
* `session.Detect`, `session.DetectTerminalSessions`, `session.detectStatus`,
  `session.getProcessCWD` — from `internal/session/detector.go`.

Time values (`time.Time`) are modelled as `Option Int`: `none` is Go's zero
`time.Time{}` value and `some t` is `time.Unix(t, 0)`, measured in whole
seconds.  Durations in the embedded code are likewise in seconds (the
2-second activity threshold, the 10-second CWD cache TTL).

External collaborators (the tmux binary, `ps`, `lsof`) are modelled as
explicit inputs: the combined output / error of each invocation is a
parameter of the embedded function, so the theorems quantify over every
possible collaborator outcome.
-/

deriving instance DecidableEq for Except

namespace GoStr

/-- Go `unicode.IsSpace` restricted to the ASCII space characters that the
embedded code can encounter. -/
def isSpaceGo (c : Char) : Bool :=
  c = ' ' || c = '\t' || c = '\n' || c = '\x0b' || c = '\x0c' || c = '\r'

/-- Split a character list at every character satisfying `p`
(Go `strings.Split` semantics when `p` recognises a single separator:
`split "" = [""]`, separators between every pair of fields). -/
def splitPred (p : Char → Bool) : List Char → List (List Char)
  | [] => [[]]
  | c :: cs =>
    let r := splitPred p cs
    if p c then [] :: r
    else
      match r with
      | [] => [[c]]
      | h :: t => (c :: h) :: t

/-- Go `strings.Split(s, sep)` for a one-character separator. -/
def splitChar (sep : Char) (s : String) : List String :=
  (splitPred (fun c => c = sep) s.data).map (fun l => ⟨l⟩)

/-- Go `strings.Fields`: split on whitespace runs, dropping empty fields. -/
def fields (s : String) : List String :=
  ((splitPred isSpaceGo s.data).filter (fun l => l ≠ [])).map (fun l => ⟨l⟩)

/-- Go `strings.TrimSpace`. -/
def trimSpace (s : String) : String :=
  ⟨((s.data.dropWhile isSpaceGo).reverse.dropWhile isSpaceGo).reverse⟩

/-- Go `strings.TrimRight(s, "/")`. -/
def trimRightSlash (s : String) : String :=
  ⟨(s.data.reverse.dropWhile (fun c => c = '/')).reverse⟩

/-- Does `s` start with the character list `pat`? -/
def leads : List Char → List Char → Bool
  | [], _ => true
  | _ :: _, [] => false
  | p :: ps, c :: cs => p = c && leads ps cs

/-- Go `strings.HasPrefix`. -/
def hasPre (s pat : String) : Bool := leads pat.data s.data

/-- Go `strings.HasSuffix`. -/
def hasSuf (s pat : String) : Bool := leads pat.data.reverse s.data.reverse

/-- Substring search over character lists. -/
def subAux (pat : List Char) : List Char → Bool
  | [] => leads pat []
  | c :: cs => leads pat (c :: cs) || subAux pat cs

/-- Go `strings.Contains`. -/
def containsSub (s pat : String) : Bool := subAux pat.data s.data

/-- Go `strings.ToLower` (ASCII case folding, which is all the embedded
signatures need). -/
def toLowerStr (s : String) : String := ⟨s.data.map Char.toLower⟩

/-- Go `strings.TrimPrefix`. -/
def trimPre (s pat : String) : String :=
  if hasPre s pat then ⟨s.data.drop pat.data.length⟩ else s

/-- Numeric value of a digit list (most significant first). -/
def digitsVal : List Char → Nat → Nat
  | [], acc => acc
  | c :: cs, acc => digitsVal cs (acc * 10 + (c.toNat - '0'.toNat))

/-- Parse a non-empty all-digit list, `none` otherwise. -/
def parseDigits (l : List Char) : Option Nat :=
  if l = [] then none
  else if l.all Char.isDigit then some (digitsVal l 0)
  else none

/-- The syntactic reading of Go `strconv.ParseInt(s, 10, 64)`: an
optional sign followed by at least one digit, read as an unbounded
integer; `none` on any other shape (Go's ErrSyntax). -/
def readDecInt (s : String) : Option Int :=
  match s.data with
  | '-' :: rest => (parseDigits rest).map (fun n => -(n : Int))
  | '+' :: rest => (parseDigits rest).map (fun n => (n : Int))
  | l => (parseDigits l).map (fun n => (n : Int))

/-- Largest signed 64-bit value, Go `math.MaxInt64`. -/
def maxInt64 : Int := 9223372036854775807

/-- Smallest signed 64-bit value, Go `math.MinInt64`. -/
def minInt64 : Int := -9223372036854775808

/-- Go `strconv.ParseInt(s, 10, 64)` / `strconv.Atoi`: the returned
value paired with the success flag (`err == nil`).  A syntax error
returns 0 with an error; a syntactically valid value outside the signed
64-bit range returns the clamped MaxInt64/MinInt64 with a range error
(Go's ErrRange); otherwise the value with no error. -/
def goParseInt (s : String) : Int × Bool :=
  match readDecInt s with
  | none => (0, false)
  | some n =>
    if n > maxInt64 then (maxInt64, false)
    else if n < minInt64 then (minInt64, false)
    else (n, true)

end GoStr

open GoStr

/-- Go `time.Time`, in whole seconds: `none` is the zero `time.Time{}`,
`some t` is `time.Unix(t, 0)`. -/
abbrev GoTime := Option Int

namespace tmux

/-- `RawSession` from internal/tmux/parser.go: one parsed line of
`tmux list-sessions` output. -/
structure RawSession where
  Name : String
  Created : GoTime
  Attached : Bool
  Windows : Int
  Activity : GoTime
  Path : String
deriving DecidableEq

/-- `parseUnixTimestamp` from parser.go: `strconv.ParseInt` of the trimmed
field; on error (syntax or range) the zero time value, otherwise
`time.Unix(ts, 0)`. -/
def parseUnixTimestamp (s : String) : GoTime :=
  let r := goParseInt (trimSpace s)
  if r.2 then some r.1 else none

/-- The per-line body of the `ParseSessions` loop (parser.go lines 31-55):
trim, skip blank lines, split on `|`, drop lines with fewer than six
fields, otherwise build one `RawSession`. -/
def parseSessionLine (line : String) : Option RawSession :=
  let line := trimSpace line
  if line = "" then none
  else
    let parts := splitChar '|' line
    if parts.length < 6 then none
    else
      some
        { Name := parts.getD 0 ""
          Created := parseUnixTimestamp (parts.getD 1 "")
          Attached := parts.getD 2 "" == "1"
          Windows := (goParseInt (parts.getD 3 "")).1
          Activity := parseUnixTimestamp (parts.getD 4 "")
          Path := parts.getD 5 "" }

/-- `ParseSessions` from parser.go: empty output is no sessions; otherwise
each line is parsed independently. -/
def ParseSessions (output : String) : List RawSession :=
  if output = "" then []
  else (splitChar '\n' output).filterMap parseSessionLine

/-- `ProcEntry` from internal/tmux/client.go: a child process id and its
command line, as one entry of the parent → children index. -/
structure ProcEntry where
  PID : String
  Args : String
deriving DecidableEq

/-- The parent → children index (`procChildren` in client.go): Go's
`map[string][]ProcEntry`, modelled as an association list. -/
abbrev ChildMap := List (String × List ProcEntry)

/-- Go map indexing `procChildren[current]`: the first binding for the
key, or the empty list when the key is absent. -/
def lookupChildren (cm : ChildMap) (pid : String) : List ProcEntry :=
  match cm.find? (fun p => p.1 == pid) with
  | some p => p.2
  | none => []

/-- All child process ids appearing anywhere in the index — the universe
that the BFS queue can ever draw new elements from. -/
def allChildPids (cm : ChildMap) : List String :=
  (cm.map (fun p => p.2.map ProcEntry.PID)).flatten

/-- One matching test of the BFS inner loop (client.go line 484):
`strings.Contains(strings.ToLower(child.Args), "claude")`. -/
def argsMatch (e : ProcEntry) : Bool :=
  containsSub (toLowerStr e.Args) "claude"

/-- The BFS loop of `hasClaudeDescendant` (client.go lines 472-491), with
an explicit fuel argument so the definition is structurally recursive;
`none` means the fuel ran out.  Each iteration pops the queue head; an
already-visited id is skipped, otherwise it is marked visited, a matching
child returns `true` immediately, and all child ids are enqueued. -/
def bfsFuel (cm : ChildMap) : Nat → List String → List String → Option Bool
  | 0, _, _ => none
  | _ + 1, [], _ => some false
  | fuel + 1, current :: rest, visited =>
    if current ∈ visited then bfsFuel cm fuel rest visited
    else
      let children := lookupChildren cm current
      if children.any argsMatch then some true
      else bfsFuel cm fuel (rest ++ children.map ProcEntry.PID) (current :: visited)

/-- Fuel that provably suffices for the BFS to finish
(`bfsFuel_isSome_of_fuel` below): every id can be processed at most once
as unvisited, each such step enqueues at most `allChildPids` new ids, and
everything else shrinks the queue. -/
def descFuel (rootPID : String) (cm : ChildMap) : Nat :=
  (rootPID :: allChildPids cm).length * ((allChildPids cm).length + 1) + 2

/-- `hasClaudeDescendant` from client.go lines 451-492, on an already
materialised parent → children index (the `procChildren ≠ nil` path; the
nil path merely builds the same index from a fresh `ps` snapshot first). -/
def hasClaudeDescendant (rootPID : String) (cm : ChildMap) : Bool :=
  (bfsFuel cm (descFuel rootPID cm) [rootPID] []).getD false

/-- The outcome of one external command invocation: `out` is the combined
output, `err` the error string of a failed invocation (`none` when the
command succeeded). -/
structure ExecOutcome where
  out : String
  err : Option String
deriving DecidableEq

/-- `ListSessions` from internal/tmux/client.go lines 304-319: on success
the trimmed combined output; on failure, "no server running" / "no
current client" in the output or "exit status" in the error message
degrade to an empty (but successful) result, and anything else propagates
the error. -/
def ListSessions (r : ExecOutcome) : Except String String :=
  match r.err with
  | none => .ok (trimSpace r.out)
  | some e =>
    if containsSub r.out "no server running" || containsSub r.out "no current client" ||
        containsSub e "exit status" then
      .ok ""
    else
      .error e

end tmux

namespace session

/-- `Status` from internal/session/session.go: the five legal session
states (string-valued in Go; the carrier strings are irrelevant to the
detection logic). -/
inductive Status where
  | active
  | idle
  | waiting
  | unknown
  | terminal
deriving DecidableEq

/-- `StatusActive` constant. -/
def StatusActive : Status := .active

/-- `StatusIdle` constant. -/
def StatusIdle : Status := .idle

/-- `StatusWaiting` constant. -/
def StatusWaiting : Status := .waiting

/-- `StatusUnknown` constant. -/
def StatusUnknown : Status := .unknown

/-- `StatusTerminal` constant. -/
def StatusTerminal : Status := .terminal

/-- `Session` from internal/session: the fields written by `Detect` and
`DetectTerminalSessions` in detector.go (the float-valued CPU/Memory usage
fields are never touched by the detection path and are not modelled). -/
structure Session where
  Name : String
  Project : String
  Status : Status
  StartedAt : GoTime
  Activity : GoTime
  Attached : Bool
  PID : String
  Path : String
  Managed : Bool
deriving DecidableEq

/-- `SessionPrefix` from session.go: prefix of managed session names. -/
def SessionPrefix : String := "cd-"

/-- `extractProject` from detector.go lines 261-276: project label from
the session name (managed prefix stripped) or, failing that, the last
component of the slash-trimmed path, or the bare name. -/
def extractProject (name path : String) : String :=
  if hasPre name SessionPrefix then trimPre name SessionPrefix
  else if path ≠ "" then
    (splitChar '/' (trimRightSlash path)).getLastD ""
  else name

/-- Is the last-activity timestamp within the 2-second recency window of
the poll time `now`?  Embeds detector.go lines 198-203:
`!lastActivity.IsZero() && time.Since(lastActivity) < idleThreshold`. -/
def isRecent (now : Int) (lastActivity : GoTime) : Bool :=
  match lastActivity with
  | none => false
  | some t => decide (now - t < 2)

/-- Does a (trimmed, non-blank) pane line signal a confirmation question?
Embeds detector.go lines 223-226. -/
def isQuestionLine (l : String) : Bool :=
  hasSuf l "?" || containsSub l "(y/n)" || containsSub l "(Y/n)" ||
    containsSub l "(y/N)" || containsSub l "Y/n" || containsSub l "y/N"

/-- Does a (trimmed, non-blank) pane line look like a shell prompt?
Embeds detector.go lines 232-233. -/
def isPromptLine (l : String) : Bool :=
  hasPre l ">" || containsSub l "❯" || hasSuf l "$"

/-- The scanning loop of `detectStatus` (detector.go lines 215-243), run
over the inspected pane lines most recent first.  A question line returns
Waiting immediately; a prompt line only records a flag and the loop keeps
going; once the lines are exhausted the result is Idle whether or not a
prompt was seen (both the `hasPrompt` branch and the fallthrough return
Idle in the source). -/
def statusScan : List String → Bool → Status
  | [], _ => StatusIdle
  | line :: rest, hasPrompt =>
    let l := trimSpace line
    if l = "" then statusScan rest hasPrompt
    else if isQuestionLine l then StatusWaiting
    else statusScan rest (hasPrompt || isPromptLine l)

/-- The pane lines that the `detectStatus` loop inspects, most recent
first: the last 20 lines of the captured content, reversed
(detector.go line 215: `for i := len-1; i >= 0 && i >= len-20; i--`). -/
def inspectedLines (content : String) : List String :=
  let lines := splitChar '\n' content
  (lines.drop (lines.length - 20)).reverse

/-- `detectStatus` from detector.go lines 197-244.  `capture` is the
outcome of the `CapturePaneContent` collaborator call for this session:
`Except.error` models a failed capture. -/
def detectStatus (now : Int) (lastActivity : GoTime)
    (capture : Except String String) : Status :=
  if isRecent now lastActivity then StatusActive
  else
    match capture with
    | .error _ => StatusIdle
    | .ok content => statusScan (inspectedLines content) false

/-- Last element of a `strings.Split` result (`parts[len(parts)-1]`;
split results are never empty). -/
def lastField (l : List String) : String := l.getLastD ""

/-- The project label derived from a terminal process's working directory
(detector.go lines 145-151): last component of the slash-trimmed path,
empty when the path is empty. -/
def projectOf (path : String) : String :=
  if path ≠ "" then lastField (splitChar '/' (trimRightSlash path)) else ""

/-- The `Session` built for one surviving terminal process
(detector.go lines 153-160). -/
def termSession (cwd : String → String) (pid tty : String) : Session :=
  let path := cwd pid
  { Name := "terminal/" ++ tty
    Project := projectOf path
    Status := StatusTerminal
    StartedAt := none
    Activity := none
    Attached := false
    PID := pid
    Path := path
    Managed := false }

/-- One iteration of the `DetectTerminalSessions` loop
(detector.go lines 116-162): skip rows with fewer than four fields, keep
only rows whose executable base name is exactly "claude", skip process
ids already claimed by tmux sessions, skip rows with no real tty. -/
def termLine (cwd : String → String) (tmuxPIDs : List String) (line : String) :
    Option Session :=
  let fs := GoStr.fields line
  if fs.length < 4 then none
  else
    let pid := fs.getD 0 ""
    let tty := fs.getD 2 ""
    if lastField (splitChar '/' (fs.getD 3 "")) ≠ "claude" then none
    else if pid ∈ tmuxPIDs then none
    else if tty = "??" ∨ tty = "?" then none
    else some (termSession cwd pid tty)

/-- Does a `ps` row qualify as a bare terminal claude process, before the
tmux-pid exclusion (≥ 4 fields, base name "claude", real tty)? -/
def termCandidate (line : String) : Bool :=
  let fs := GoStr.fields line
  decide (¬ fs.length < 4) &&
    (lastField (splitChar '/' (fs.getD 3 "")) == "claude") &&
    !(fs.getD 2 "" == "??" || fs.getD 2 "" == "?")

/-- The process id field of a `ps` row. -/
def termLinePid (line : String) : String := (GoStr.fields line).getD 0 ""

/-- `DetectTerminalSessions` from detector.go lines 107-165. `psOut` is
the outcome of the `ps -eo pid,ppid,tty,args` invocation (`none` = the
command failed, yielding no sessions); the header line is skipped. -/
def DetectTerminalSessions (cwd : String → String) (psOut : Option String)
    (tmuxPIDs : List String) : List Session :=
  match psOut with
  | none => []
  | some out => ((splitChar '\n' out).drop 1).filterMap (termLine cwd tmuxPIDs)

/-- The external collaborator outcomes one `Detect` poll can observe:
the `tmux list-sessions` invocation, the poll time, and — per session
name — the `HasClaudeProcess` verdict, the pane capture and the pane-pid
lookup; plus the `ps` snapshot for the terminal scan and the resolved
working directory per process id. -/
structure DetectEnv where
  tmuxList : tmux.ExecOutcome
  now : Int
  hasClaude : String → Bool
  capture : String → Except String String
  sessionPID : String → Except String String
  psOut : Option String
  cwd : String → String

/-- The per-raw-session body of the `Detect` loop (detector.go lines
55-83): keep the session when its name carries the managed prefix, or
contains "claude" case-insensitively, or `HasClaudeProcess` finds the
target program in its pane subtree; classify its status, and record the
pane pid when the lookup succeeds. -/
def mkTmuxSession (env : DetectEnv) (raw : tmux.RawSession) : Option Session :=
  let isNameMatch := hasPre raw.Name SessionPrefix ||
    containsSub (toLowerStr raw.Name) "claude"
  if !isNameMatch && !env.hasClaude raw.Name then none
  else
    some
      { Name := raw.Name
        Project := extractProject raw.Name raw.Path
        Status := detectStatus env.now raw.Activity (env.capture raw.Name)
        StartedAt := raw.Created
        Activity := raw.Activity
        Attached := raw.Attached
        PID := match env.sessionPID raw.Name with | .ok p => p | .error _ => ""
        Path := raw.Path
        Managed := true }

/-- The tmux-derived sessions of one poll. -/
def tmuxSessionsOf (env : DetectEnv) (output : String) : List Session :=
  (tmux.ParseSessions output).filterMap (mkTmuxSession env)

/-- The dedup set of detector.go lines 85-91: the non-empty pane pids of
the tmux-derived sessions. -/
def tmuxPIDsOf (l : List Session) : List String :=
  (l.filter (fun s => s.PID ≠ "")).map Session.PID

/-- `Detect` from detector.go lines 38-98.  A failed or empty
`ListSessions` falls back to `detectTerminalOnly` (terminal scan with an
empty dedup set); otherwise the parsed tmux sessions are built, their
pane pids collected, and the terminal scan appended with those pids
excluded. -/
def Detect (env : DetectEnv) : Except String (List Session) :=
  match tmux.ListSessions env.tmuxList with
  | .error _ => .ok (DetectTerminalSessions env.cwd env.psOut [])
  | .ok output =>
    if output = "" then .ok (DetectTerminalSessions env.cwd env.psOut [])
    else
      let ts := tmuxSessionsOf env output
      .ok (ts ++ DetectTerminalSessions env.cwd env.psOut (tmuxPIDsOf ts))

/-- `cwdCacheTTL` from detector.go line 24 (10 seconds). -/
def cwdCacheTTL : Int := 10

/-- `cwdCacheEntry` from detector.go lines 16-19. -/
structure CwdEntry where
  path : String
  expires : Int
deriving DecidableEq

/-- The `cwdCache` map, as an association list keyed by process id. -/
abbrev CwdCache := List (String × CwdEntry)

/-- Go map lookup `cwdCache[pid]`. -/
def lookupCwd (cache : CwdCache) (pid : String) : Option CwdEntry :=
  (cache.find? (fun e => e.1 == pid)).map (fun e => e.2)

/-- First `n/`-marked line of the lsof output, marker dropped
(detector.go lines 181-186). -/
def firstCwdLine : List String → String
  | [] => ""
  | l :: rest => if hasPre l "n/" then ⟨l.data.drop 1⟩ else firstCwdLine rest

/-- The parse of the `lsof -a -p pid -d cwd -Fn` output (detector.go
lines 180-187): the first line with the `n/` marker, with the marker
character dropped; empty on command failure or when no line matches. -/
def parseLsofCwd (lsofOut : Option String) : String :=
  match lsofOut with
  | none => ""
  | some out => firstCwdLine (splitChar '\n' out)

/-- Result of one `getProcessCWD` call: the returned path, the cache
state after the call, and whether the external resolver (lsof) was
invoked. -/
structure CwdLookup where
  path : String
  cache : CwdCache
  invoked : Bool
deriving DecidableEq

/-- The cache-miss path of `getProcessCWD` (detector.go lines 177-193):
invoke lsof, parse the path, store it with a fresh TTL. -/
def refreshCwd (lsofOut : Option String) (now : Int) (pid : String)
    (cache : CwdCache) : CwdLookup :=
  let result := parseLsofCwd lsofOut
  { path := result
    cache := (pid, { path := result, expires := now + cwdCacheTTL }) ::
      cache.filter (fun e => !(e.1 == pid))
    invoked := true }

/-- `getProcessCWD` from detector.go lines 169-194, with the global cache
and clock made explicit: a live cache entry (`now` strictly before its
expiry) is returned without invoking the resolver; anything else
re-resolves and refreshes the entry. -/
def getProcessCWD (lsofOut : Option String) (now : Int) (pid : String)
    (cache : CwdCache) : CwdLookup :=
  match lookupCwd cache pid with
  | some entry =>
    if now < entry.expires then { path := entry.path, cache := cache, invoked := false }
    else refreshCwd lsofOut now pid cache
  | none => refreshCwd lsofOut now pid cache

end session

-- Sanity checks of the string layer against Go semantics.
example : splitChar '|' "a|b||c" = ["a", "b", "", "c"] := by decide
example : splitChar '|' "" = [""] := by decide
example : GoStr.fields "  12  34\tx " = ["12", "34", "x"] := by decide
example : trimSpace "  ab\n" = "ab" := by decide
example : containsSub "no server running" "no server" = true := by decide
example : goParseInt "-42" = (-42, true) := by decide
example : goParseInt "12a" = (0, false) := by decide
example : goParseInt "99999999999999999999" = (9223372036854775807, false) := by decide
example : goParseInt "-99999999999999999999" = (-9223372036854775808, false) := by decide
example : tmux.ParseSessions "my-session|1700000000|1|3|1700000100|/home/user/project" =
    [{ Name := "my-session", Created := some 1700000000, Attached := true,
       Windows := 3, Activity := some 1700000100, Path := "/home/user/project" }] := by decide
example : tmux.ParseSessions "bad-line|only|four|fields" = [] := by decide
example : session.detectStatus 1000 (some 999) (Except.error "x") = session.StatusActive := by decide
example : session.detectStatus 1000 (some 400) (Except.ok "Continue? (y/n)") = session.StatusWaiting := by decide
example : session.detectStatus 1000 (some 400) (Except.ok "user@host:~/project$") = session.StatusIdle := by decide
example : session.detectStatus 1000 (some 400) (Except.error "capture-pane failed") = session.StatusIdle := by decide
example : session.detectStatus 1000 (some 400) (Except.ok "Proceed?\nuser@host:~/project$") = session.StatusWaiting := by decide
example : tmux.hasClaudeDescendant "1"
    [("1", [⟨"2", "bash"⟩]), ("2", [⟨"1", "bash"⟩])] = false := by decide
example : tmux.hasClaudeDescendant "100"
    [("100", [⟨"101", "zsh"⟩]), ("101", [⟨"102", "claude --resume"⟩])] = true := by decide
example : tmux.ListSessions ⟨"no server running on /tmp/tmux-501/default", some "exit status 1"⟩ =
    Except.ok "" := by decide
example :
    session.Detect
      { tmuxList := ⟨"cd-alpha|100|1|1|90|/home/u/alpha", none⟩
        now := 1000
        hasClaude := fun _ => false
        capture := fun _ => Except.error "capture-pane failed"
        sessionPID := fun _ => Except.ok "42"
        psOut := some "  PID  PPID TTY      ARGS\n   42     1 ttys000  /usr/local/bin/claude\n   77     1 ttys002  /usr/local/bin/claude"
        cwd := fun _ => "/home/u/alpha" } =
    Except.ok
      [{ Name := "cd-alpha", Project := "alpha", Status := session.StatusIdle,
         StartedAt := some 100, Activity := some 90, Attached := true,
         PID := "42", Path := "/home/u/alpha", Managed := true },
       { Name := "terminal/ttys002", Project := "alpha", Status := session.StatusTerminal,
         StartedAt := none, Activity := none, Attached := false,
         PID := "77", Path := "/home/u/alpha", Managed := false }] := by decide

/-! ## Helper lemmas about the parser -/

namespace tmux

theorem parseSessionLine_of_six (line : String)
    (h : 6 ≤ (splitChar '|' (trimSpace line)).length) :
    parseSessionLine line = some
      { Name := (splitChar '|' (trimSpace line)).getD 0 ""
        Created := parseUnixTimestamp ((splitChar '|' (trimSpace line)).getD 1 "")
        Attached := (splitChar '|' (trimSpace line)).getD 2 "" == "1"
        Windows := (goParseInt ((splitChar '|' (trimSpace line)).getD 3 "")).1
        Activity := parseUnixTimestamp ((splitChar '|' (trimSpace line)).getD 4 "")
        Path := (splitChar '|' (trimSpace line)).getD 5 "" } := by
  have hne : trimSpace line ≠ "" := by
    intro he
    have h1 : (splitChar '|' "").length = 1 := by decide
    rw [he, h1] at h
    omega
  simp only [parseSessionLine]
  rw [if_neg hne, if_neg (by omega)]

theorem parseSessionLine_of_lt_six (line : String)
    (h : (splitChar '|' (trimSpace line)).length < 6) :
    parseSessionLine line = none := by
  by_cases he : trimSpace line = ""
  · simp only [parseSessionLine]
    rw [if_pos he]
  · simp only [parseSessionLine]
    rw [if_neg he, if_pos h]

end tmux

/-! ## Claim C6 -/

/-- C6: every line of multiplexer list-sessions output that splits on `|`
into at least six fields yields exactly one `RawSession` carrying those
fields (name, created, attached, window count, activity, path), and every
line with fewer than six fields yields no `RawSession`; `ParseSessions`
is exactly the per-line parse applied to each line of the output. -/
theorem parse_sessions_line_spec (output line : String) :
    tmux.ParseSessions output =
      (if output = "" then []
        else (splitChar '\n' output).filterMap tmux.parseSessionLine) ∧
    (6 ≤ (splitChar '|' (trimSpace line)).length →
      tmux.parseSessionLine line = some
        { Name := (splitChar '|' (trimSpace line)).getD 0 ""
          Created := tmux.parseUnixTimestamp ((splitChar '|' (trimSpace line)).getD 1 "")
          Attached := (splitChar '|' (trimSpace line)).getD 2 "" == "1"
          Windows := (goParseInt ((splitChar '|' (trimSpace line)).getD 3 "")).1
          Activity := tmux.parseUnixTimestamp ((splitChar '|' (trimSpace line)).getD 4 "")
          Path := (splitChar '|' (trimSpace line)).getD 5 "" }) ∧
    ((splitChar '|' (trimSpace line)).length < 6 →
      tmux.parseSessionLine line = none) :=
  ⟨rfl, tmux.parseSessionLine_of_six line, tmux.parseSessionLine_of_lt_six line⟩

/-- C6 witness: the per-line parse at one well-formed six-field line and
at one four-field line. -/
theorem parse_sessions_line_spec_witness :
    tmux.parseSessionLine "my-session|1700000000|1|3|1700000100|/home/user/project" =
      some { Name := "my-session", Created := some 1700000000, Attached := true,
             Windows := 3, Activity := some 1700000100, Path := "/home/user/project" } ∧
    tmux.parseSessionLine "bad-line|only|four|fields" = none := by
  constructor
  · rw [(parse_sessions_line_spec "" "my-session|1700000000|1|3|1700000100|/home/user/project").2.1
      (by decide)]
    decide
  · exact (parse_sessions_line_spec "" "bad-line|only|four|fields").2.2 (by decide)

/-! ## Claim C7 -/

/-- C7: for every parsed multiplexer session line, the attached flag is
true if and only if the third pipe-delimited field is the literal string
"1"; any other value (including the empty string) yields `attached =
false`. -/
theorem parse_sessions_attached_iff (line : String) (r : tmux.RawSession)
    (h : tmux.parseSessionLine line = some r) :
    r.Attached = true ↔ (splitChar '|' (trimSpace line)).getD 2 "" = "1" := by
  by_cases h6 : 6 ≤ (splitChar '|' (trimSpace line)).length
  · rw [tmux.parseSessionLine_of_six line h6] at h
    obtain rfl := Option.some.inj h
    simp [beq_iff_eq]
  · rw [tmux.parseSessionLine_of_lt_six line (by omega)] at h
    exact absurd h (by simp)

/-- C7 witness: the attached flag at field value "1" and at field value
"0". -/
theorem parse_sessions_attached_iff_witness :
    (∃ r : tmux.RawSession,
      tmux.parseSessionLine "a|5|1|2|6|/p" = some r ∧ r.Attached = true) ∧
    (∃ r : tmux.RawSession,
      tmux.parseSessionLine "a|5|0|2|6|/p" = some r ∧ r.Attached = false) := by
  constructor
  · refine ⟨⟨"a", some 5, true, 2, some 6, "/p"⟩, by decide, ?_⟩
    exact (parse_sessions_attached_iff "a|5|1|2|6|/p" _ (by decide)).mpr (by decide)
  · refine ⟨⟨"a", some 5, false, 2, some 6, "/p"⟩, by decide, ?_⟩
    have h := parse_sessions_attached_iff "a|5|0|2|6|/p"
      ⟨"a", some 5, false, 2, some 6, "/p"⟩ (by decide)
    have hne : ¬ ((⟨"a", some 5, false, 2, some 6, "/p"⟩ : tmux.RawSession).Attached = true) :=
      fun ht => absurd (h.mp ht) (by decide)
    exact (Bool.not_eq_true _) ▸ hne

/-! ## Claim C8 -/

/-- C8 counterexample: the claim says every unparseable window-count
field defaults to zero, but a 64-bit range overflow is also a
`strconv.Atoi` parse failure (ErrRange), and there the ignored-error
assignment keeps Go's clamped return value: on the field
"99999999999999999999" the row is produced with window count
MaxInt64 = 9223372036854775807, not 0. -/
theorem parse_sessions_overflow_cex :
    (goParseInt "99999999999999999999").2 = false ∧
    ∃ r, tmux.parseSessionLine "name|x|1|99999999999999999999|z|/p" = some r ∧
      r.Windows = 9223372036854775807 ∧ r.Windows ≠ 0 := by
  refine ⟨by decide, ⟨"name", none, true, 9223372036854775807, none, "/p"⟩, ?_, ?_, ?_⟩
  · decide
  · decide
  · decide

/-- C8 amended: a line with at least six fields is always produced as a
row, whatever its numeric fields hold; a window-count field rejected as
a syntax error defaults to zero, while one rejected as a 64-bit range
overflow carries the clamped MaxInt64 value; the created/activity
timestamps default to the zero time value on every parse failure,
syntax or range. -/
theorem parse_sessions_numeric_defaults (line : String)
    (h6 : 6 ≤ (splitChar '|' (trimSpace line)).length) :
    ∃ r, tmux.parseSessionLine line = some r ∧
      (readDecInt ((splitChar '|' (trimSpace line)).getD 3 "") = none →
        r.Windows = 0) ∧
      (∀ n : Int, readDecInt ((splitChar '|' (trimSpace line)).getD 3 "") = some n →
        maxInt64 < n → r.Windows = maxInt64) ∧
      ((goParseInt (trimSpace ((splitChar '|' (trimSpace line)).getD 1 ""))).2 = false →
        r.Created = none) ∧
      ((goParseInt (trimSpace ((splitChar '|' (trimSpace line)).getD 4 ""))).2 = false →
        r.Activity = none) := by
  refine ⟨_, tmux.parseSessionLine_of_six line h6, ?_, ?_, ?_, ?_⟩
  · intro hsyn
    have hgp : goParseInt ((splitChar '|' (trimSpace line)).getD 3 "") = (0, false) := by
      simp only [goParseInt]
      rw [hsyn]
    rw [hgp]
  · intro n hn hlt
    have hgp : goParseInt ((splitChar '|' (trimSpace line)).getD 3 "") =
        (maxInt64, false) := by
      simp only [goParseInt]
      rw [hn]
      show (if maxInt64 < n then (maxInt64, false)
        else if n < minInt64 then (minInt64, false) else (n, true)) = (maxInt64, false)
      rw [if_pos hlt]
    rw [hgp]
  · intro hbad
    show tmux.parseUnixTimestamp ((splitChar '|' (trimSpace line)).getD 1 "") = none
    simp only [tmux.parseUnixTimestamp]
    rw [hbad]
    rfl
  · intro hbad
    show tmux.parseUnixTimestamp ((splitChar '|' (trimSpace line)).getD 4 "") = none
    simp only [tmux.parseUnixTimestamp]
    rw [hbad]
    rfl

/-- C8 amended witness: a six-field line with syntax-error numeric
fields yields the row with window count 0 and zero timestamps, and a
six-field line with an overflowing window-count field yields the row
with the clamped MaxInt64 window count. -/
theorem parse_sessions_numeric_defaults_witness :
    (∃ r, tmux.parseSessionLine "name|x|1|y|z|/p" = some r ∧
      r.Windows = 0 ∧ r.Created = none ∧ r.Activity = none) ∧
    (∃ r, tmux.parseSessionLine "name|x|1|99999999999999999999|z|/p" = some r ∧
      r.Windows = maxInt64) := by
  constructor
  · obtain ⟨r, hr, hw, _, hc, ha⟩ :=
      parse_sessions_numeric_defaults "name|x|1|y|z|/p" (by decide)
    exact ⟨r, hr, hw (by decide), hc (by decide), ha (by decide)⟩
  · obtain ⟨r, hr, _, hn, _, _⟩ :=
      parse_sessions_numeric_defaults "name|x|1|99999999999999999999|z|/p" (by decide)
    exact ⟨r, hr, hn 99999999999999999999 (by decide) (by decide)⟩

/-! ## Helper lemmas about the status classifier -/

namespace session

/-- When no inspected line is a question/confirmation line, the scanning
loop falls through to Idle, whatever the prompt flag. -/
theorem statusScan_no_question (l : List String)
    (h : ∀ x ∈ l, isQuestionLine (trimSpace x) = false) :
    ∀ b : Bool, statusScan l b = StatusIdle := by
  induction l with
  | nil => intro b; rfl
  | cons x xs ih =>
    intro b
    have hx : isQuestionLine (trimSpace x) = false := h x (by simp)
    simp only [statusScan]
    by_cases he : trimSpace x = ""
    · rw [if_pos he]
      exact ih (fun y hy => h y (by simp [hy])) b
    · rw [if_neg he, if_neg (by simp [hx])]
      exact ih (fun y hy => h y (by simp [hy])) _

/-- If some inspected line is a question/confirmation line, the scan
returns Waiting whatever the prompt flag: non-question lines (prompt
markers included) never return early, so the scan always reaches the
question line. -/
theorem statusScan_waiting_of_question (l : List String)
    (h : ∃ x ∈ l, isQuestionLine (trimSpace x) = true) :
    ∀ b : Bool, statusScan l b = StatusWaiting := by
  induction l with
  | nil =>
    intro b
    obtain ⟨x, hx, _⟩ := h
    cases hx
  | cons x xs ih =>
    intro b
    simp only [statusScan]
    by_cases he : trimSpace x = ""
    · rw [if_pos he]
      obtain ⟨y, hy, hq⟩ := h
      rcases List.mem_cons.mp hy with rfl | hmem
      · rw [he] at hq
        exact absurd hq (by decide)
      · exact ih ⟨y, hmem, hq⟩ b
    · rw [if_neg he]
      by_cases hq : isQuestionLine (trimSpace x) = true
      · rw [if_pos hq]
      · rw [if_neg hq]
        obtain ⟨y, hy, hqy⟩ := h
        rcases List.mem_cons.mp hy with rfl | hmem
        · exact absurd hqy hq
        · exact ih ⟨y, hmem, hqy⟩ _

end session

/-! ## Claim C3 -/

/-- C3: the status classifier's four literal cases.  Last activity 1
second before a poll at time 1000 is Active (for every capture outcome,
since the pane is not even captured); last activity 10 minutes ago with
pane tail "Continue? (y/n)" is Waiting; the same staleness with pane tail
"user@host:~/project$" is Idle; and a failed capture under the same
staleness is Idle, never Active. -/
theorem detect_status_literal_cases :
    (∀ cap : Except String String,
      session.detectStatus 1000 (some 999) cap = session.StatusActive) ∧
    session.detectStatus 1000 (some 400) (Except.ok "Continue? (y/n)") =
      session.StatusWaiting ∧
    session.detectStatus 1000 (some 400) (Except.ok "user@host:~/project$") =
      session.StatusIdle ∧
    session.detectStatus 1000 (some 400) (Except.error "capture-pane failed") =
      session.StatusIdle :=
  ⟨fun _ => rfl, by decide, by decide, by decide⟩

/-! ## Claim C4 -/

/-- C4 counterexample: the claim predicts Idle whenever the most recent
non-blank line of a stale session's pane tail is a shell-prompt marker,
even when an older inspected line ends in `?`.  The code disagrees: with
pane tail "Proceed?\nuser@host:~/project$" (prompt most recent, question
older) the classifier returns Waiting, because a prompt line only sets a
flag and the scan keeps inspecting older lines, where the question line
returns Waiting immediately. -/
theorem detect_status_prompt_recency_cex :
    session.detectStatus 1000 (some 400)
      (Except.ok "Proceed?\nuser@host:~/project$") = session.StatusWaiting := by
  decide

/-- C4 amended: for a stale session whose pane capture succeeds, a line
ending in `?` or containing a yes/no confirmation pattern anywhere in
the inspected tail yields Waiting regardless of the prompt line's
recency (a prompt marker only sets a flag and never returns early), and
the classifier returns Idle — in particular when the most recent
non-blank line is a shell-prompt marker — exactly when no inspected line
is such a question/confirmation line. -/
theorem detect_status_waiting_precedence (now : Int) (act : GoTime) (content : String)
    (hstale : session.isRecent now act = false) :
    ((∃ l ∈ session.inspectedLines content,
        session.isQuestionLine (trimSpace l) = true) →
      session.detectStatus now act (Except.ok content) = session.StatusWaiting) ∧
    ((∀ l ∈ session.inspectedLines content,
        session.isQuestionLine (trimSpace l) = false) →
      session.detectStatus now act (Except.ok content) = session.StatusIdle) := by
  constructor
  · intro h
    simp only [session.detectStatus]
    rw [if_neg (by simp [hstale])]
    exact session.statusScan_waiting_of_question _ h false
  · intro h
    simp only [session.detectStatus]
    rw [if_neg (by simp [hstale])]
    exact session.statusScan_no_question _ h false

/-- C4 amended witness: with stale activity, the tail whose most recent
non-blank line is a prompt marker but whose older line ends in `?` is
classified Waiting, and a tail whose single line is a prompt marker is
classified Idle. -/
theorem detect_status_waiting_precedence_witness :
    session.detectStatus 1000 (some 400)
      (Except.ok "Proceed?\nuser@host:~/project$") = session.StatusWaiting ∧
    session.detectStatus 1000 (some 400) (Except.ok "user@host:~/work$") =
      session.StatusIdle :=
  ⟨(detect_status_waiting_precedence 1000 (some 400) "Proceed?\nuser@host:~/project$"
      (by decide)).1 (by decide),
   (detect_status_waiting_precedence 1000 (some 400) "user@host:~/work$"
      (by decide)).2 (by decide)⟩

/-! ## Helper lemmas about the descendant matcher -/

namespace tmux

/-- Filtering with a stronger predicate keeps no more elements. -/
theorem filter_len_mono {α : Type} (p q : α → Bool) (l : List α)
    (h : ∀ x, p x = true → q x = true) :
    (l.filter p).length ≤ (l.filter q).length := by
  induction l with
  | nil => simp
  | cons x xs ih =>
    rw [List.filter_cons, List.filter_cons]
    by_cases hp : p x = true
    · rw [if_pos hp, if_pos (h x hp)]
      simpa using ih
    · rw [if_neg hp]
      by_cases hq : q x = true
      · rw [if_pos hq]
        exact Nat.le_trans ih (Nat.le_succ _)
      · rw [if_neg hq]
        exact ih

/-- Marking a genuinely new element as visited strictly shrinks the
unvisited part of the universe. -/
theorem unvisited_dec (U visited : List String) (a : String)
    (haU : a ∈ U) (hav : a ∉ visited) :
    (U.filter (fun x => decide (x ∉ a :: visited))).length <
      (U.filter (fun x => decide (x ∉ visited))).length := by
  induction U with
  | nil => cases haU
  | cons y ys ih =>
    rw [List.filter_cons, List.filter_cons]
    by_cases hya : y = a
    · subst hya
      rw [if_neg (by simp), if_pos (by simp [hav])]
      have hmono := filter_len_mono (fun x => decide (x ∉ y :: visited))
        (fun x => decide (x ∉ visited)) ys
        (by
          intro x hx
          simp only [decide_eq_true_eq] at hx ⊢
          exact fun hm => hx (List.mem_cons_of_mem _ hm))
      simpa using Nat.lt_succ_of_le hmono
    · have haYs : a ∈ ys := by
        rcases List.mem_cons.mp haU with h | h
        · exact absurd h.symm hya
        · exact h
      by_cases hyv : y ∈ visited
      · rw [if_neg (by simp [hyv]), if_neg (by simp [hyv])]
        exact ih haYs
      · rw [if_pos (by simp [hya, hyv]), if_pos (by simp [hyv])]
        exact Nat.succ_lt_succ (ih haYs)

/-- Every child entry's pid lies in `allChildPids`. -/
theorem pid_mem_allChildPids (cm : ChildMap) (c : String) (e : ProcEntry)
    (he : e ∈ lookupChildren cm c) : e.PID ∈ allChildPids cm := by
  unfold lookupChildren at he
  split at he
  next p hf =>
    have hp : p ∈ cm := List.mem_of_find?_eq_some hf
    exact List.mem_flatten.mpr
      ⟨p.2.map ProcEntry.PID, List.mem_map_of_mem _ hp, List.mem_map_of_mem _ he⟩
  next => cases he

/-- A member list is no longer than the flattened whole. -/
theorem length_le_flatten {α : Type} (l : List α) (L : List (List α)) (h : l ∈ L) :
    l.length ≤ L.flatten.length := by
  induction L with
  | nil => cases h
  | cons x xs ih =>
    rw [List.flatten_cons, List.length_append]
    rcases List.mem_cons.mp h with rfl | h'
    · exact Nat.le_add_right _ _
    · exact Nat.le_trans (ih h') (Nat.le_add_left _ _)

/-- No pid has more children than there are child pids in total. -/
theorem lookupChildren_length_le (cm : ChildMap) (c : String) :
    (lookupChildren cm c).length ≤ (allChildPids cm).length := by
  unfold lookupChildren allChildPids
  split
  next p hf =>
    have hp : p ∈ cm := List.mem_of_find?_eq_some hf
    have h1 : (p.2.map ProcEntry.PID) ∈ cm.map (fun q => q.2.map ProcEntry.PID) :=
      List.mem_map_of_mem _ hp
    have h2 := length_le_flatten _ _ h1
    rw [List.length_map] at h2
    exact h2
  next => simp

/-- Sufficiency of the fuel: as long as every queued pid lies in the
universe `U`, every pid's child list is bounded by `T` entries whose pids
lie in `U`, and the fuel exceeds `|unvisited| * (T+1) + |queue|`, the BFS
finishes (does not exhaust its fuel).  The measure mirrors the informal
termination argument: a visited head shrinks the queue, an unvisited head
shrinks the unvisited set while enqueuing at most `T` pids. -/
theorem bfsFuel_isSome_of_fuel (cm : ChildMap) (U : List String) (T : Nat)
    (hU : ∀ c : String, ∀ e ∈ lookupChildren cm c, e.PID ∈ U)
    (hT : ∀ c : String, (lookupChildren cm c).length ≤ T) :
    ∀ (fuel : Nat) (queue visited : List String),
      (∀ p ∈ queue, p ∈ U) →
      (U.filter (fun x => decide (x ∉ visited))).length * (T + 1) + queue.length < fuel →
      (bfsFuel cm fuel queue visited).isSome = true := by
  intro fuel
  induction fuel with
  | zero =>
    intro queue visited _ hlt
    exact absurd hlt (by omega)
  | succ fuel ih =>
    intro queue visited hq hlt
    match queue with
    | [] => rfl
    | current :: rest =>
      simp only [bfsFuel]
      by_cases hv : current ∈ visited
      · rw [if_pos hv]
        refine ih rest visited (fun p hp => hq p (List.mem_cons_of_mem _ hp)) ?_
        have hq1 : (current :: rest).length = rest.length + 1 := rfl
        rw [hq1] at hlt
        generalize (U.filter (fun x => decide (x ∉ visited))).length * (T + 1) = M at hlt ⊢
        omega
      · rw [if_neg hv]
        by_cases hm : (lookupChildren cm current).any argsMatch = true
        · rw [if_pos hm]
          rfl
        · rw [if_neg hm]
          refine ih (rest ++ (lookupChildren cm current).map ProcEntry.PID)
            (current :: visited) ?_ ?_
          · intro p hp
            rcases List.mem_append.mp hp with h | h
            · exact hq p (List.mem_cons_of_mem _ h)
            · obtain ⟨e, he, rfl⟩ := List.mem_map.mp h
              exact hU current e he
          · have hcur : current ∈ U := hq current (List.mem_cons_self _ _)
            have hdec := unvisited_dec U visited current hcur hv
            have hc : ((lookupChildren cm current).map ProcEntry.PID).length ≤ T := by
              rw [List.length_map]
              exact hT current
            rw [List.length_append]
            have hq1 : (current :: rest).length = rest.length + 1 := rfl
            rw [hq1] at hlt
            have hmul : (U.filter (fun x => decide (x ∉ current :: visited))).length * (T + 1)
                + (T + 1) ≤ (U.filter (fun x => decide (x ∉ visited))).length * (T + 1) := by
              have h1 := Nat.mul_le_mul_right (T + 1) hdec
              rwa [Nat.succ_mul] at h1
            generalize (U.filter (fun x => decide (x ∉ current :: visited))).length * (T + 1) = A
              at hmul ⊢
            generalize (U.filter (fun x => decide (x ∉ visited))).length * (T + 1) = B
              at hmul hlt
            omega

end tmux

/-! ## Claim C5 -/

/-- C5: the descendant matcher terminates with a boolean on every input,
including parent-id data containing cycles: the provably sufficient fuel
`descFuel` never runs out (the BFS result is always `some`), because the
visited set lets each pid be expanded at most once; and on the concrete
two-cycle (pid 1's listed parent is 2 and pid 2's listed parent is 1,
neither running the target program) it returns `false`. -/
theorem has_claude_descendant_terminates :
    (∀ (rootPID : String) (cm : tmux.ChildMap),
      tmux.bfsFuel cm (tmux.descFuel rootPID cm) [rootPID] [] =
        some (tmux.hasClaudeDescendant rootPID cm)) ∧
    tmux.hasClaudeDescendant "1" [("1", [⟨"2", "bash"⟩]), ("2", [⟨"1", "bash"⟩])] = false := by
  constructor
  · intro root cm
    have hsome := tmux.bfsFuel_isSome_of_fuel cm (root :: tmux.allChildPids cm)
      (tmux.allChildPids cm).length
      (fun c e he => List.mem_cons_of_mem _ (tmux.pid_mem_allChildPids cm c e he))
      (fun c => tmux.lookupChildren_length_le cm c)
      (tmux.descFuel root cm) [root] []
      (by
        intro p hp
        have : p = root := by simpa using hp
        subst this
        exact List.mem_cons_self _ _)
      (by
        have hfilter : (root :: tmux.allChildPids cm).filter
            (fun x => decide (x ∉ ([] : List String))) = root :: tmux.allChildPids cm := by
          apply List.filter_eq_self.mpr
          intro a _
          simp
        rw [hfilter]
        unfold tmux.descFuel
        generalize (root :: tmux.allChildPids cm).length * ((tmux.allChildPids cm).length + 1) = K
        simp)
    obtain ⟨b, hb⟩ := Option.isSome_iff_exists.mp hsome
    rw [hb]
    unfold tmux.hasClaudeDescendant
    rw [hb]
    rfl
  · decide

/-! ## Helper lemmas about the detection pipeline -/

namespace session

/-- A session emitted by the terminal-scan loop has a pid outside the
tmux dedup set, is unmanaged, and carries Terminal status. -/
theorem termLine_some (cwd : String → String) (pids : List String) (line : String)
    (s : Session) (h : termLine cwd pids line = some s) :
    s.PID ∉ pids ∧ s.Managed = false ∧ s.Status = StatusTerminal := by
  simp only [termLine] at h
  split at h
  · cases h
  · split at h
    · cases h
    · split at h
      · cases h
      · split at h
        · cases h
        · rename_i hlen hname hpid htty
          obtain rfl := Option.some.inj h
          exact ⟨hpid, rfl, rfl⟩

/-- Every session of the terminal scan avoids the dedup pids and is an
unmanaged Terminal session. -/
theorem mem_DetectTerminalSessions (cwd : String → String) (psOut : Option String)
    (pids : List String) (s : Session)
    (hs : s ∈ DetectTerminalSessions cwd psOut pids) :
    s.PID ∉ pids ∧ s.Managed = false ∧ s.Status = StatusTerminal := by
  match psOut with
  | none =>
    simp only [DetectTerminalSessions] at hs
    exact absurd hs (List.not_mem_nil _)
  | some out =>
    simp only [DetectTerminalSessions] at hs
    obtain ⟨line, _, hline⟩ := List.mem_filterMap.mp hs
    exact termLine_some cwd pids line s hline

/-- Every tmux-derived session is managed. -/
theorem mem_tmuxSessionsOf (env : DetectEnv) (output : String) (s : Session)
    (hs : s ∈ tmuxSessionsOf env output) : s.Managed = true := by
  unfold tmuxSessionsOf at hs
  obtain ⟨raw, _, hraw⟩ := List.mem_filterMap.mp hs
  simp only [mkTmuxSession] at hraw
  split at hraw
  · cases hraw
  · obtain rfl := Option.some.inj hraw
    rfl

/-- With an empty dedup set, the terminal-scan loop emits a session for a
`ps` row exactly when the row is a terminal candidate. -/
theorem termLine_isSome_nil (cwd : String → String) (line : String) :
    (termLine cwd [] line).isSome = termCandidate line := by
  simp only [termLine, termCandidate]
  by_cases h4 : (GoStr.fields line).length < 4
  · rw [if_pos h4]
    simp [h4]
  · rw [if_neg h4]
    by_cases hb : lastField (splitChar '/' ((GoStr.fields line).getD 3 "")) = "claude"
    · rw [if_neg (not_not_intro hb), if_neg (List.not_mem_nil _)]
      by_cases htty : (GoStr.fields line).getD 2 "" = "??" ∨ (GoStr.fields line).getD 2 "" = "?"
      · rw [if_pos htty]
        rcases htty with ht | ht <;> simp_all
      · rw [if_neg htty]
        rcases not_or.mp htty with ⟨ht1, ht2⟩
        simp_all
    · rw [if_pos hb]
      simp_all

/-- The length of a `filterMap` counts the inputs mapped to `some`. -/
theorem length_filterMap_eq_countP {α β : Type} (f : α → Option β) (l : List α) :
    (l.filterMap f).length = l.countP (fun a => (f a).isSome) := by
  induction l with
  | nil => rfl
  | cons x xs ih =>
    rw [List.filterMap_cons, List.countP_cons]
    cases hf : f x with
    | none => simp [hf, ih]
    | some b => simp [hf, ih]

/-- `countP` only depends on the predicate's values on the list. -/
theorem countP_ext {α : Type} (p q : α → Bool) (l : List α)
    (h : ∀ a ∈ l, p a = q a) : l.countP p = l.countP q := by
  induction l with
  | nil => rfl
  | cons x xs ih =>
    rw [List.countP_cons, List.countP_cons, h x (by simp),
      ih (fun a ha => h a (by simp [ha]))]

end session

/-! ## Claim C10 -/

/-- C10: `Detect` never returns a non-nil error.  For every outcome of
the external collaborators (any multiplexer list failure, empty
multiplexer output, or a failed `ps` enumeration in the terminal
scanner), `Detect` returns a possibly-empty session list with a nil
error. -/
theorem detect_never_errors (env : session.DetectEnv) :
    ∃ l, session.Detect env = Except.ok l := by
  rcases h : tmux.ListSessions env.tmuxList with e | output
  · refine ⟨session.DetectTerminalSessions env.cwd env.psOut [], ?_⟩
    simp [session.Detect, h]
  · by_cases ho : output = ""
    · refine ⟨session.DetectTerminalSessions env.cwd env.psOut [], ?_⟩
      simp [session.Detect, h, ho]
    · refine ⟨session.tmuxSessionsOf env output ++
        session.DetectTerminalSessions env.cwd env.psOut
          (session.tmuxPIDsOf (session.tmuxSessionsOf env output)), ?_⟩
      simp [session.Detect, h, ho]

/-! ## Claim C1 -/

/-- C1: when a process id `p` appears both as a multiplexer pane's pid
(among the tmux-derived sessions of the poll, where pane pids identify
one session each) and as a matching entry in the raw terminal process
list, the merged result of `Detect` contains exactly one session for
`p` — a managed one — and the terminal scanner emits no session for
`p`. -/
theorem detect_dedup_managed (env : session.DetectEnv) (output p psText : String)
    (l : List session.Session)
    (hls : tmux.ListSessions env.tmuxList = Except.ok output)
    (hne : output ≠ "")
    (hdet : session.Detect env = Except.ok l)
    (hp : p ∈ session.tmuxPIDsOf (session.tmuxSessionsOf env output))
    (huniq : (session.tmuxSessionsOf env output).countP (fun s => s.PID == p) = 1)
    (_hps : env.psOut = some psText)
    (_hline : ∃ line ∈ (splitChar '\n' psText).drop 1,
      session.termCandidate line = true ∧ session.termLinePid line = p) :
    l.countP (fun s => s.PID == p) = 1 ∧
    (∀ s ∈ l, s.PID = p → s.Managed = true) ∧
    (∀ s ∈ session.DetectTerminalSessions env.cwd env.psOut
        (session.tmuxPIDsOf (session.tmuxSessionsOf env output)), s.PID ≠ p) := by
  have hterm : ∀ s ∈ session.DetectTerminalSessions env.cwd env.psOut
      (session.tmuxPIDsOf (session.tmuxSessionsOf env output)), s.PID ≠ p := by
    intro s hs heq
    have hnot := (session.mem_DetectTerminalSessions _ _ _ s hs).1
    rw [heq] at hnot
    exact hnot hp
  have hl : l = session.tmuxSessionsOf env output ++
      session.DetectTerminalSessions env.cwd env.psOut
        (session.tmuxPIDsOf (session.tmuxSessionsOf env output)) := by
    have h2 : session.Detect env = Except.ok (session.tmuxSessionsOf env output ++
        session.DetectTerminalSessions env.cwd env.psOut
          (session.tmuxPIDsOf (session.tmuxSessionsOf env output))) := by
      simp [session.Detect, hls, hne]
    rw [hdet] at h2
    exact Except.ok.inj h2
  subst hl
  refine ⟨?_, ?_, hterm⟩
  · rw [List.countP_append]
    have h0 : (session.DetectTerminalSessions env.cwd env.psOut
        (session.tmuxPIDsOf (session.tmuxSessionsOf env output))).countP
          (fun s => s.PID == p) = 0 := by
      apply List.countP_eq_zero.mpr
      intro s hs
      simp only [beq_iff_eq]
      exact hterm s hs
    rw [huniq, h0]
  · intro s hs hpid
    rcases List.mem_append.mp hs with h | h
    · exact session.mem_tmuxSessionsOf env output s h
    · exact absurd hpid (hterm s h)

/-- C1 witness: a poll with one managed session "cd-alpha" whose pane pid
42 also shows up in the `ps` snapshot as a claude process on a real tty;
the merged result counts exactly one session with pid 42. -/
theorem detect_dedup_managed_witness :
    ([{ Name := "cd-alpha", Project := "alpha", Status := session.StatusIdle,
        StartedAt := some 100, Activity := some 90, Attached := true,
        PID := "42", Path := "/home/u/alpha", Managed := true }] :
      List session.Session).countP (fun s => s.PID == "42") = 1 :=
  (detect_dedup_managed
    { tmuxList := ⟨"cd-alpha|100|1|1|90|/home/u/alpha", none⟩
      now := 1000
      hasClaude := fun _ => false
      capture := fun _ => Except.error "capture-pane failed"
      sessionPID := fun _ => Except.ok "42"
      psOut := some "  PID  PPID TTY      ARGS\n   42     1 ttys000  /usr/local/bin/claude"
      cwd := fun _ => "" }
    "cd-alpha|100|1|1|90|/home/u/alpha" "42"
    "  PID  PPID TTY      ARGS\n   42     1 ttys000  /usr/local/bin/claude"
    [{ Name := "cd-alpha", Project := "alpha", Status := session.StatusIdle,
       StartedAt := some 100, Activity := some 90, Attached := true,
       PID := "42", Path := "/home/u/alpha", Managed := true }]
    (by decide) (by decide) (by decide) (by decide) (by decide) rfl (by decide)).1

/-! ## Claim C2 -/

/-- C2: when the multiplexer is entirely unavailable (the list-sessions
invocation failed and reported "no server running", yielding an empty
result) and the `ps` snapshot's non-header lines contain exactly one
terminal-candidate row (base name "claude", real tty), `Detect` returns
successfully with exactly one session, which is unmanaged with Terminal
status — hence zero managed sessions. -/
theorem detect_no_server_terminal_only (env : session.DetectEnv) (e psText : String)
    (herr : env.tmuxList.err = some e)
    (hns : containsSub env.tmuxList.out "no server running" = true)
    (hps : env.psOut = some psText)
    (hone : ((splitChar '\n' psText).drop 1).countP session.termCandidate = 1) :
    ∃ s : session.Session, session.Detect env = Except.ok [s] ∧
      s.Managed = false ∧ s.Status = session.StatusTerminal := by
  have hls : tmux.ListSessions env.tmuxList = Except.ok "" := by
    simp only [tmux.ListSessions]
    rw [herr]
    simp [hns]
  have hX : session.Detect env = Except.ok
      (session.DetectTerminalSessions env.cwd env.psOut []) := by
    simp [session.Detect, hls]
  rw [hps] at hX
  have hlen : (session.DetectTerminalSessions env.cwd (some psText) []).length = 1 := by
    simp only [session.DetectTerminalSessions]
    rw [session.length_filterMap_eq_countP]
    rw [session.countP_ext _ _ _
      (fun line _ => session.termLine_isSome_nil env.cwd line)]
    exact hone
  obtain ⟨s, hs⟩ := List.length_eq_one.mp hlen
  have hmem : s ∈ session.DetectTerminalSessions env.cwd (some psText) [] := by
    rw [hs]
    exact List.mem_singleton.mpr rfl
  have hprops := session.mem_DetectTerminalSessions env.cwd (some psText) [] s hmem
  exact ⟨s, by rw [hX, hs], hprops.2.1, hprops.2.2⟩

/-- C2 witness: a "no server running" tmux failure plus a `ps` snapshot
with one claude row on a real tty yields exactly one unmanaged Terminal
session. -/
theorem detect_no_server_terminal_only_witness :
    ∃ s : session.Session,
      session.Detect
        { tmuxList := ⟨"no server running on /tmp/tmux-501/default", some "exit status 1"⟩
          now := 0
          hasClaude := fun _ => false
          capture := fun _ => Except.error "capture-pane failed"
          sessionPID := fun _ => Except.error "no pane"
          psOut := some "  PID  PPID TTY      ARGS\n   42     1 ttys000  /usr/local/bin/claude"
          cwd := fun _ => "/home/u/alpha" } = Except.ok [s] ∧
      s.Managed = false ∧ s.Status = session.StatusTerminal :=
  detect_no_server_terminal_only _ "exit status 1"
    "  PID  PPID TTY      ARGS\n   42     1 ttys000  /usr/local/bin/claude"
    rfl (by decide) rfl (by decide)

/-! ## Claim C9 -/

/-- C9: for every process id, two CWD lookups starting from a cache with
no entry for that pid invoke the external resolver exactly once when the
second lookup falls inside the TTL window (the second is served from the
live entry, returning the same path and leaving the cache untouched),
while a second lookup at or after the entry's expiry invokes the resolver
again and refreshes the entry with a new TTL. -/
theorem get_process_cwd_cache_ttl (pid : String) (t1 t2 : Int)
    (o1 o2 : Option String) (cache : session.CwdCache)
    (hfresh : session.lookupCwd cache pid = none) :
    (session.getProcessCWD o1 t1 pid cache).invoked = true ∧
    (t2 < t1 + session.cwdCacheTTL →
      (session.getProcessCWD o2 t2 pid
        (session.getProcessCWD o1 t1 pid cache).cache).invoked = false ∧
      (session.getProcessCWD o2 t2 pid
        (session.getProcessCWD o1 t1 pid cache).cache).path =
        (session.getProcessCWD o1 t1 pid cache).path) ∧
    (t1 + session.cwdCacheTTL ≤ t2 →
      (session.getProcessCWD o2 t2 pid
        (session.getProcessCWD o1 t1 pid cache).cache).invoked = true ∧
      session.lookupCwd (session.getProcessCWD o2 t2 pid
          (session.getProcessCWD o1 t1 pid cache).cache).cache pid =
        some { path := session.parseLsofCwd o2,
               expires := t2 + session.cwdCacheTTL }) := by
  have h1 : session.getProcessCWD o1 t1 pid cache = session.refreshCwd o1 t1 pid cache := by
    simp [session.getProcessCWD, hfresh]
  have hcache1 : session.lookupCwd (session.refreshCwd o1 t1 pid cache).cache pid =
      some { path := session.parseLsofCwd o1, expires := t1 + session.cwdCacheTTL } := by
    simp [session.refreshCwd, session.lookupCwd, List.find?]
  refine ⟨by rw [h1]; rfl, ?_, ?_⟩
  · intro hlt
    rw [h1]
    constructor
    · simp [session.getProcessCWD, hcache1, hlt]
    · simp only [session.getProcessCWD]
      rw [hcache1]
      simp [hlt, session.refreshCwd]
  · intro hge
    have hnot : ¬ (t2 < t1 + session.cwdCacheTTL) := by omega
    rw [h1]
    constructor
    · simp only [session.getProcessCWD]
      rw [hcache1]
      simp [hnot, session.refreshCwd]
    · simp [session.getProcessCWD, hcache1, hnot, session.refreshCwd,
        session.lookupCwd, List.find?]

/-- C9 witness: pid "7", first lookup at time 0 (resolver invoked),
second at time 5 inside the 10-second TTL (resolver not invoked), and the
refresh behavior at time 12 after expiry. -/
theorem get_process_cwd_cache_ttl_witness :
    (session.getProcessCWD (some "n/home/u\nf123") 0 "7" []).invoked = true ∧
    (session.getProcessCWD (some "n/tmp") 5 "7"
      (session.getProcessCWD (some "n/home/u\nf123") 0 "7" []).cache).invoked = false ∧
    (session.getProcessCWD (some "n/tmp") 12 "7"
      (session.getProcessCWD (some "n/home/u\nf123") 0 "7" []).cache).invoked = true := by
  refine ⟨(get_process_cwd_cache_ttl "7" 0 5 (some "n/home/u\nf123") (some "n/tmp") [] rfl).1,
    ((get_process_cwd_cache_ttl "7" 0 5 (some "n/home/u\nf123") (some "n/tmp") [] rfl).2.1
      (by decide)).1,
    ((get_process_cwd_cache_ttl "7" 0 12 (some "n/home/u\nf123") (some "n/tmp") [] rfl).2.2
      (by decide)).1⟩
